import Mathlib

/-!
Verification of the DCI repository (generate_traces.py, validate_rmt_dci.py).

The Python sources are shallowly embedded below. Machine floats in the
source (the uniform draw, DCI scores, MCI scores) are modelled as exact
rationals; Python integers as naturals or integers as appropriate; a Python
run that dies with an uncaught exception is modelled as the value `none`.
-/

namespace DCI

/-- A call pattern, one element of the `call_patterns` argument of
`generate_microservice_traces`: `(caller, callee, frequency)`. -/
abbrev Pat := String × String × ℕ

/-- One generated trace object (generate_traces.py, lines 43-48).
`localEndpoint` and `remoteEndpoint` stand for the `serviceName` fields of the
nested objects of the same names. -/
structure Trace where
  traceId : String
  id : String
  localEndpoint : String
  remoteEndpoint : String
deriving DecidableEq

/-- `total_frequency = sum(freq for _, _, freq in call_patterns)`
(generate_traces.py, line 30). -/
def totalFrequency (ps : List Pat) : ℕ :=
  (ps.map (fun p => p.2.2)).sum

/-- The pattern-selection loop of generate_traces.py, lines 35-40: starting
from the running sum `c`, add each frequency in declared order and break at
the first pattern whose cumulative sum is `≥ u`; when the loop ends without a
break, the loop variables keep the last pattern. `none` only on an empty
list, where the loop body never runs and the loop variables stay unbound. -/
def selectLoop (u : ℚ) : ℚ → List Pat → Option Pat
  | _, [] => none
  | c, p :: ps =>
    if u ≤ c + (p.2.2 : ℚ) then some p
    else
      match ps with
      | [] => some p
      | _ :: _ => selectLoop u (c + (p.2.2 : ℚ)) ps

/-- The trace object built at generate_traces.py, lines 43-48, for the
current `trace_id` `t` and selected pattern `p`. -/
def mkTrace (t : ℕ) (p : Pat) : Trace :=
  { traceId := toString t
    id := toString t
    localEndpoint := p.1
    remoteEndpoint := p.2.1 }

/-- The generation loop of generate_traces.py, lines 32-50: `t` is the
running `trace_id`, `n` the number of traces still to generate, and
`draws t` the value `random.uniform(0, total_frequency)` drawn in the
iteration with trace id `t`. On an empty pattern list with at least one
iteration the loop body reads the unbound loop variables (`NameError`),
modelled as `none`. -/
def genLoop (ps : List Pat) (draws : ℕ → ℚ) : ℕ → ℕ → Option (List Trace)
  | _, 0 => some []
  | t, n + 1 =>
    match selectLoop (draws t) 0 ps with
    | none => none
    | some p => (genLoop ps draws (t + 1) n).map (fun ts => mkTrace t p :: ts)

/-- generate_traces.py, lines 12-52. The `services` argument is accepted but
never used by the function body; `trace_id` starts at 1. The sequence of
uniform draws is passed explicitly, indexed by trace id. -/
def generate_microservice_traces (services : List String) (ps : List Pat)
    (numTraces : ℕ) (draws : ℕ → ℚ) : Option (List Trace) :=
  genLoop ps draws 1 numTraces

/-- Cumulative frequency of the first `k` patterns, the value of the
`cumulative` variable after `k` iterations of the selection loop. -/
def cumFreq (ps : List Pat) (k : ℕ) : ℕ :=
  ((ps.take k).map (fun p => p.2.2)).sum

/-- The static pattern catalog of `create_common_patterns`
(generate_traces.py, lines 54-108): name, service list, call list. -/
def create_common_patterns : List (String × List String × List Pat) :=
  [("simple_chain",
    (["frontend", "api-gateway", "user-service", "database"],
     [("frontend", "api-gateway", 10),
      ("api-gateway", "user-service", 8),
      ("user-service", "database", 6)])),
   ("ecommerce",
    (["web", "api", "user", "order", "payment", "inventory", "notification"],
     [("web", "api", 15), ("api", "user", 8), ("api", "order", 6),
      ("api", "payment", 4), ("order", "inventory", 3),
      ("order", "payment", 2), ("payment", "notification", 1)])),
   ("microservice_mesh",
    (["gateway", "auth", "user", "product", "order", "payment", "shipping",
      "analytics"],
     [("gateway", "auth", 12), ("gateway", "user", 10),
      ("gateway", "product", 8), ("gateway", "order", 6),
      ("user", "auth", 4), ("order", "payment", 3), ("order", "shipping", 2),
      ("order", "analytics", 1), ("payment", "analytics", 1)])),
   ("event_driven",
    (["producer", "event-bus", "consumer1", "consumer2", "consumer3",
      "database"],
     [("producer", "event-bus", 20), ("event-bus", "consumer1", 8),
      ("event-bus", "consumer2", 6), ("event-bus", "consumer3", 4),
      ("consumer1", "database", 3), ("consumer2", "database", 2)]))]

/-- The names of the catalog's templates, in declared order. -/
def patternNames : List String :=
  create_common_patterns.map (fun e => e.1)

/-- The contents of the Python set `service_calls[s]` after the loop of
generate_traces.py, lines 152-153: the callees of every call whose caller is
`s`, without repetition (set semantics; insertion order is irrelevant to the
count the code takes of it). -/
def calleesOf (calls : List Pat) (s : String) : List String :=
  ((calls.filter (fun c => c.1 = s)).map (fun c => c.2.1)).dedup

/-- `actual_calls = len(service_calls[service])` (generate_traces.py,
line 160). -/
def distinctCallees (calls : List Pat) (s : String) : ℕ :=
  (calleesOf calls s).length

/-- `max_possible = len(services) - 1` (generate_traces.py, line 155),
a Python int, so it can be negative on an empty service list. -/
def maxPossible (services : List String) : ℤ :=
  (services.length : ℤ) - 1

/-- `dci = actual_calls / max_possible if max_possible > 0 else 0`
(generate_traces.py, line 161). -/
def expectedDci (services : List String) (calls : List Pat) (s : String) : ℚ :=
  if 0 < maxPossible services then
    (distinctCallees calls s : ℚ) / (maxPossible services : ℚ)
  else 0

/-- The status chain of generate_traces.py, line 162:
`"High" if dci >= 0.7 else "Moderate" if dci >= 0.4 else "Low" if dci > 0
else "No"`. -/
def classify (d : ℚ) : String :=
  if 7/10 ≤ d then "High"
  else if 4/10 ≤ d then "Moderate"
  else if 0 < d then "Low"
  else "No"

/-- One row of the loaded DCI results table (columns `Service`, `DCI`,
`Status` of validate_rmt_dci.py). -/
structure DciRow where
  service : String
  dci : ℚ
  status : String
deriving DecidableEq

/-- `df['Status'].value_counts()` (validate_rmt_dci.py, line 29): one
(status, count) entry per status value that occurs in the table, with its
number of occurrences. pandas orders the entries by descending count; the
claims under study concern only which entries exist, so the model lists them
in first-occurrence order. -/
def statusDistribution (rows : List DciRow) : List (String × ℕ) :=
  (rows.map (fun r => r.status)).dedup.map
    (fun s => (s, (rows.filter (fun r => r.status = s)).length))

/-- One row of the merged comparison table of compare_with_mci
(validate_rmt_dci.py, lines 65-73): `Service`, `DCI`, `MCI_Afferent` and the
derived `Difference` column. -/
structure ComparisonRow where
  service : String
  dci : ℚ
  mciAfferent : ℚ
  difference : ℚ
deriving DecidableEq

/-- `pd.merge(dci_df, mci_df, on='Service', how='inner')` followed by
`merged['Difference'] = abs(merged['DCI'] - merged['MCI_Afferent'])`
(validate_rmt_dci.py, lines 65 and 73): inner join on the service name —
each left row paired with each right row carrying the same service — plus
the absolute-difference column. -/
def compareJoin (dciRows mciRows : List (String × ℚ)) : List ComparisonRow :=
  dciRows.flatMap (fun d =>
    (mciRows.filter (fun m => m.1 = d.1)).map
      (fun m => { service := d.1, dci := d.2, mciAfferent := m.2,
                  difference := |d.2 - m.2| }))

/-- The (DCI, MCI_Afferent) column pair of the merged table, the two series
handed to `.corr` at validate_rmt_dci.py, line 69. -/
def joinedPairs (dciRows mciRows : List (String × ℚ)) : List (ℚ × ℚ) :=
  (compareJoin dciRows mciRows).map (fun r => (r.dci, r.mciAfferent))

/-- First column of a list of pairs. -/
def col1 (pairs : List (ℚ × ℚ)) : List ℚ := pairs.map (fun p => p.1)

/-- Second column of a list of pairs. -/
def col2 (pairs : List (ℚ × ℚ)) : List ℚ := pairs.map (fun p => p.2)

/-- Arithmetic mean of a column (0 on an empty column, by rational
convention x / 0 = 0). -/
def meanQ (l : List ℚ) : ℚ := l.sum / (l.length : ℚ)

/-- Sum of squared deviations from the mean of a column; zero exactly when
the column is constant (or has fewer than two entries). -/
def devSum2 (l : List ℚ) : ℚ :=
  (l.map (fun x => (x - meanQ l) ^ 2)).sum

/-- Sum of products of deviations of the two columns, the numerator of the
Pearson coefficient. -/
def covSum (pairs : List (ℚ × ℚ)) : ℚ :=
  (pairs.map (fun p =>
    (p.1 - meanQ (col1 pairs)) * (p.2 - meanQ (col2 pairs)))).sum

/-- Modelled from the spec: the Pearson computation behind
`merged['DCI'].corr(merged['MCI_Afferent'])` (validate_rmt_dci.py, line 69)
lives in the pandas library, not in this repository's sources. Per the
spec, it returns the Pearson correlation coefficient of the two columns and
NaN — modelled as `none` — when there are fewer than 2 rows or either
column has zero variance. -/
noncomputable def correlation (pairs : List (ℚ × ℚ)) : Option ℝ :=
  if 2 ≤ pairs.length ∧ devSum2 (col1 pairs) ≠ 0 ∧ devSum2 (col2 pairs) ≠ 0
  then some ((covSum pairs : ℝ) /
    Real.sqrt ((devSum2 (col1 pairs) : ℝ) * (devSum2 (col2 pairs) : ℝ)))
  else none

/-- Exit status of generate_traces.py's `main` (lines 110-127) as a function
of the argument list `sys.argv[1:]` and of the outcome of `int(sys.argv[2])`
at line 120 (`numParse`, `none` when the string is not a valid integer, in
which case the uncaught ValueError terminates the process with status 1).
`sys.exit(1)` on missing arguments and on an unknown pattern name; the parse
of the count argument happens before the pattern check and only when a
second argument is present; status 0 otherwise (the generation itself
cannot fail on the non-empty catalog templates). -/
def generateMainExit (args : List String) (numParse : Option ℤ) : ℕ :=
  match args with
  | [] => 1
  | name :: rest =>
    match rest with
    | [] => if name ∈ patternNames then 0 else 1
    | _ :: _ =>
      match numParse with
      | none => 1
      | some _ => if name ∈ patternNames then 0 else 1

/-- The table `load_dci_results` hands back on success: which of the
`Service` and `Status` columns are present (the `DCI` column necessarily is,
since the load's try block reads `df['DCI'].mean()` and a failure is caught
and turned into `None`), plus the parsed rows. -/
structure LoadedTable where
  hasService : Bool
  hasStatus : Bool
  rows : List DciRow
deriving DecidableEq

/-- Whether `analyze_dci_results` (validate_rmt_dci.py, lines 24-53) raises
an uncaught KeyError on the table: at line 29 when the `Status` column is
absent, or at lines 46/53 when the `Service` column is absent and the
high-coupling subset (some dci ≥ 0.7) or the isolated subset (some dci = 0)
is non-empty, so its row loop actually reads `row['Service']`. -/
def analyzeRaisesKeyError (t : LoadedTable) : Bool :=
  !t.hasStatus ||
    (!t.hasService &&
      (t.rows.any (fun r => (7 : ℚ)/10 ≤ r.dci) ||
       t.rows.any (fun r => r.dci = 0)))

/-- Exit status of validate_rmt_dci.py's `main` (lines 107-138) as a
function of `sys.argv[1:]` and of what `load_dci_results` returns — `none`
when the file is missing or unreadable or lacks the DCI column (the load
catches every exception and returns `None`, and `main` then plain-returns,
status 0). On a loaded table, `analyze_dci_results` may die with an
uncaught KeyError (status 1); afterwards, with an MCI argument
`compare_with_mci` catches all its errors (status 0), and without one
`create_comparison_template` reads `dci_df[['Service', 'DCI']]` at line 98,
an uncaught KeyError (status 1) when the Service column is absent. No path
calls `sys.exit`; non-zero termination only arises from uncaught
exceptions. -/
def validateMainExit (args : List String)
    (loadResult : Option LoadedTable) : ℕ :=
  match args with
  | [] => 0
  | _ :: rest =>
    match loadResult with
    | none => 0
    | some t =>
      if analyzeRaisesKeyError t then 1
      else
        match rest with
        | _ :: _ => 0
        | [] => if t.hasService then 0 else 1

/-- Services and calls of the named catalog entry, `patterns[pattern_name]`
(generate_traces.py, lines 129-131); the empty template for absent names,
which `main` rejects before use. -/
def templateServices (name : String) : List String :=
  ((create_common_patterns.lookup name).map (fun e => e.1)).getD []

/-- Call list of the named catalog entry. -/
def templateCalls (name : String) : List Pat :=
  ((create_common_patterns.lookup name).map (fun e => e.2)).getD []

theorem selectLoop_cons_le {u c : ℚ} {p : Pat} {tl : List Pat}
    (h : u ≤ c + (p.2.2 : ℚ)) : selectLoop u c (p :: tl) = some p := by
  cases tl <;> simp [selectLoop, h]

theorem selectLoop_single_gt {u c : ℚ} {p : Pat}
    (h : ¬ u ≤ c + (p.2.2 : ℚ)) : selectLoop u c [p] = some p := by
  simp [selectLoop, h]

theorem selectLoop_cons_cons_gt {u c : ℚ} {p q : Pat} {tl : List Pat}
    (h : ¬ u ≤ c + (p.2.2 : ℚ)) :
    selectLoop u c (p :: q :: tl) = selectLoop u (c + (p.2.2 : ℚ)) (q :: tl) := by
  simp [selectLoop, h]

/-- The selection loop always lands on a declared pattern when the pattern
list is non-empty, whatever the draw. -/
theorem selectLoop_mem (u : ℚ) :
    ∀ (ps : List Pat) (_ : ps ≠ []) (c : ℚ),
      ∃ p ∈ ps, selectLoop u c ps = some p
  | [], h, _ => absurd rfl h
  | p :: tl, _, c => by
    by_cases hc : u ≤ c + (p.2.2 : ℚ)
    · exact ⟨p, List.mem_cons_self p tl, selectLoop_cons_le hc⟩
    · cases tl with
      | nil => exact ⟨p, List.mem_cons_self p [], selectLoop_single_gt hc⟩
      | cons q tl' =>
        obtain ⟨r, hr, hsel⟩ :=
          selectLoop_mem u (q :: tl') (by simp) (c + (p.2.2 : ℚ))
        exact ⟨r, List.mem_cons_of_mem p hr,
          (selectLoop_cons_cons_gt hc).trans hsel⟩

/-- The generation loop produces exactly `n` traces, each built from a
declared pattern, whenever the pattern list is non-empty. -/
theorem genLoop_spec (ps : List Pat) (draws : ℕ → ℚ) (h : ps ≠ []) :
    ∀ (n t : ℕ), ∃ ts, genLoop ps draws t n = some ts ∧ ts.length = n ∧
      ∀ tr ∈ ts, ∃ p ∈ ps, tr.localEndpoint = p.1 ∧ tr.remoteEndpoint = p.2.1
  | 0, _ => ⟨[], rfl, rfl, by simp⟩
  | n + 1, t => by
    obtain ⟨p, hp, hsel⟩ := selectLoop_mem (draws t) ps h 0
    obtain ⟨ts, hts, hlen, hmem⟩ := genLoop_spec ps draws h n (t + 1)
    refine ⟨mkTrace t p :: ts, ?_, by simp [hlen], ?_⟩
    · simp [genLoop, hsel, hts]
    · intro tr htr
      rcases List.mem_cons.mp htr with rfl | htr
      · exact ⟨p, hp, rfl, rfl⟩
      · exact hmem tr htr

/-- Trace ids assigned by the generation loop count up from the starting
`trace_id`. -/
theorem genLoop_get (ps : List Pat) (draws : ℕ → ℚ) :
    ∀ (n t : ℕ) (ts : List Trace), genLoop ps draws t n = some ts →
      ∀ (k : ℕ) (hk : k < ts.length),
        (ts.get ⟨k, hk⟩).traceId = toString (t + k) ∧
        (ts.get ⟨k, hk⟩).id = toString (t + k)
  | 0, t, ts, hts => by
    simp only [genLoop, Option.some.injEq] at hts
    subst hts
    intro k hk
    exact absurd hk (by simp)
  | n + 1, t, ts, hts => by
    cases hsel : selectLoop (draws t) 0 ps with
    | none => simp [genLoop, hsel] at hts
    | some p =>
      simp only [genLoop, hsel, Option.map_eq_some'] at hts
      obtain ⟨ts', hts', rfl⟩ := hts
      intro k hk
      cases k with
      | zero => exact ⟨by simp [mkTrace], by simp [mkTrace]⟩
      | succ k' =>
        have hk' : k' < ts'.length := by simpa using hk
        have := genLoop_get ps draws n (t + 1) ts' hts' k' hk'
        have harith : t + 1 + k' = t + (k' + 1) := by omega
        simpa [harith] using this

/-- C1: for every architecture template with non-empty call patterns (total
weight > 0) and every requested count `n ≥ 0`, `generate_microservice_traces`
returns exactly `n` trace records, and every record's localEndpoint and
remoteEndpoint services are the caller and callee of some pattern in the
template's call-pattern list. -/
theorem traceSynthesizer_count_and_pattern_membership
    (services : List String) (ps : List Pat) (n : ℕ) (draws : ℕ → ℚ)
    (h : 0 < totalFrequency ps) :
    ∃ ts, generate_microservice_traces services ps n draws = some ts ∧
      ts.length = n ∧
      ∀ tr ∈ ts, ∃ p ∈ ps,
        tr.localEndpoint = p.1 ∧ tr.remoteEndpoint = p.2.1 := by
  have hne : ps ≠ [] := by
    intro hnil
    rw [hnil] at h
    exact absurd h (by simp [totalFrequency])
  exact genLoop_spec ps draws hne n 1

def ps0 : List Pat := [("a", "b", 1), ("c", "d", 2)]

def draws0 : ℕ → ℚ := fun _ => 1/2

/-- C1 witness at a concrete two-pattern template and count 3. -/
theorem traceSynthesizer_count_and_pattern_membership_witness :
    ∃ ts, generate_microservice_traces ["a", "b", "c", "d"] ps0 3 draws0 = some ts ∧
      ts.length = 3 ∧
      ∀ tr ∈ ts, ∃ p ∈ ps0,
        tr.localEndpoint = p.1 ∧ tr.remoteEndpoint = p.2.1 :=
  traceSynthesizer_count_and_pattern_membership ["a", "b", "c", "d"] ps0 3 draws0
    (by decide)

theorem cumFreq_cons (p : Pat) (tl : List Pat) (k : ℕ) :
    cumFreq (p :: tl) (k + 1) = p.2.2 + cumFreq tl k := by
  simp [cumFreq]

/-- Accumulator form of the first-match property of the selection loop. -/
theorem selectLoop_first_aux (u : ℚ) :
    ∀ (ps : List Pat) (c : ℚ) (i : ℕ) (hi : i < ps.length),
      u ≤ c + (cumFreq ps (i + 1) : ℚ) →
      (∀ j, j < i → c + (cumFreq ps (j + 1) : ℚ) < u) →
      selectLoop u c ps = some (ps.get ⟨i, hi⟩)
  | [], _, i, hi, _, _ => absurd hi (by simp)
  | p :: tl, c, 0, _, hle, _ => by
    rw [cumFreq_cons] at hle
    simp only [cumFreq, List.take_zero, List.map_nil, List.sum_nil] at hle
    push_cast at hle
    exact selectLoop_cons_le (by linarith)
  | p :: tl, c, k + 1, hi, hle, hmin => by
    have h0 : c + (cumFreq (p :: tl) 1 : ℚ) < u := hmin 0 (Nat.succ_pos k)
    have h0' : ¬ u ≤ c + (p.2.2 : ℚ) := by
      rw [cumFreq_cons] at h0
      simp only [cumFreq, List.take_zero, List.map_nil, List.sum_nil] at h0
      push_cast at h0
      linarith
    have hk : k < tl.length := by simpa using hi
    cases tl with
    | nil => exact absurd hk (by simp)
    | cons q tl' =>
      rw [selectLoop_cons_cons_gt h0']
      have hle' : u ≤ (c + (p.2.2 : ℚ)) + (cumFreq (q :: tl') (k + 1) : ℚ) := by
        rw [cumFreq_cons] at hle
        push_cast at hle ⊢
        linarith
      have hmin' : ∀ j, j < k →
          (c + (p.2.2 : ℚ)) + (cumFreq (q :: tl') (j + 1) : ℚ) < u := by
        intro j hj
        have := hmin (j + 1) (by omega)
        rw [cumFreq_cons] at this
        push_cast at this ⊢
        linarith
      exact selectLoop_first_aux u (q :: tl') (c + (p.2.2 : ℚ)) k hk hle' hmin'

/-- Accumulator form of the last-wins property of the selection loop. -/
theorem selectLoop_last_aux (u : ℚ) :
    ∀ (ps : List Pat) (h : ps ≠ []) (c : ℚ),
      c + (totalFrequency ps : ℚ) < u →
      selectLoop u c ps = some (ps.getLast h)
  | [], h, _, _ => absurd rfl h
  | p :: tl, _, c, hlt => by
    have hw : (totalFrequency (p :: tl) : ℚ) =
        (p.2.2 : ℚ) + (totalFrequency tl : ℚ) := by
      simp [totalFrequency]
    rw [hw] at hlt
    have htl : (0 : ℚ) ≤ (totalFrequency tl : ℚ) := by positivity
    have hgt : ¬ u ≤ c + (p.2.2 : ℚ) := by linarith
    cases tl with
    | nil => simpa [List.getLast] using selectLoop_single_gt hgt
    | cons q tl' =>
      rw [selectLoop_cons_cons_gt hgt,
        List.getLast_cons (l := q :: tl') (by simp)]
      exact selectLoop_last_aux u (q :: tl') (by simp) (c + (p.2.2 : ℚ))
        (by linarith)

/-- C2: for every non-empty call-pattern list and every draw `u`, the
weighted selection walks the patterns in declared order accumulating a
running sum and selects the first pattern whose accumulated sum is `≥ u`;
and whenever `u` exceeds the last cumulative boundary, the last pattern in
declared order is selected rather than failing. -/
theorem selectLoop_first_match_and_last_wins (ps : List Pat) (hne : ps ≠ [])
    (u : ℚ) :
    (∀ (i : ℕ) (hi : i < ps.length),
        u ≤ (cumFreq ps (i + 1) : ℚ) →
        (∀ j, j < i → (cumFreq ps (j + 1) : ℚ) < u) →
        selectLoop u 0 ps = some (ps.get ⟨i, hi⟩))
    ∧ ((totalFrequency ps : ℚ) < u →
        selectLoop u 0 ps = some (ps.getLast hne)) := by
  constructor
  · intro i hi hle hmin
    exact selectLoop_first_aux u ps 0 i hi (by rw [zero_add]; exact hle)
      (fun j hj => by rw [zero_add]; exact hmin j hj)
  · intro hlt
    exact selectLoop_last_aux u ps hne 0 (by rw [zero_add]; exact hlt)

/-- C2 witness: with weights 1 and 2, the draw 3/2 selects the second
pattern (first cumulative boundary 1 is below the draw, boundary 3 is not),
and the out-of-range draw 4 selects the last pattern. -/
theorem selectLoop_first_match_and_last_wins_witness :
    selectLoop (3/2) 0 ps0 = some ("c", "d", 2) ∧
    selectLoop 4 0 ps0 = some ("c", "d", 2) :=
  ⟨(selectLoop_first_match_and_last_wins ps0 (by decide) (3/2)).1 1 (by decide)
      (by norm_num [cumFreq, ps0])
      (by intro j hj; interval_cases j; norm_num [cumFreq, ps0]),
   (selectLoop_first_match_and_last_wins ps0 (by decide) 4).2
      (by norm_num [totalFrequency, ps0])⟩

/-- C4 counterexample: on an empty call-pattern list with requested count 0,
the synthesizer returns an (empty) output instead of failing — no
ConfigError or any other failure occurs. -/
theorem emptyPatterns_zero_traces_succeeds :
    generate_microservice_traces ["svc"] [] 0 (fun _ => 0) = some [] := rfl

/-- C4 amended: on an empty call-pattern list the synthesizer fails for
every requested count `n ≥ 1` — but with an unnamed unbound-local-variable
fault, not a named ConfigError — and for count 0 it succeeds, returning the
empty trace list. -/
theorem emptyPatterns_behavior (services : List String) (draws : ℕ → ℚ) :
    (∀ n, 1 ≤ n →
      generate_microservice_traces services [] n draws = none)
    ∧ generate_microservice_traces services [] 0 draws = some [] := by
  constructor
  · intro n hn
    cases n with
    | zero => exact absurd hn (by decide)
    | succ m => simp [generate_microservice_traces, genLoop, selectLoop]
  · rfl

/-- C4 amended witness at count 1. -/
theorem emptyPatterns_behavior_witness :
    generate_microservice_traces ["svc"] [] 1 draws0 = none :=
  (emptyPatterns_behavior ["svc"] draws0).1 1 (by decide)

/-- C10: the `services` argument of `generate_microservice_traces` has no
effect on its result, and the traceId and spanId (`id`) fields both hold
the 1-based generation index rendered as a string. -/
theorem generate_traces_services_irrelevant (S1 S2 : List String)
    (ps : List Pat) (n : ℕ) (draws : ℕ → ℚ) :
    generate_microservice_traces S1 ps n draws
      = generate_microservice_traces S2 ps n draws
    ∧ ∀ ts, generate_microservice_traces S1 ps n draws = some ts →
        ∀ (k : ℕ) (hk : k < ts.length),
          (ts.get ⟨k, hk⟩).traceId = toString (k + 1) ∧
          (ts.get ⟨k, hk⟩).id = toString (k + 1) := by
  refine ⟨rfl, ?_⟩
  intro ts hts k hk
  have := genLoop_get ps draws n 1 ts hts k hk
  rwa [Nat.add_comm 1 k] at this

/-- C10 witness: two different service lists, same patterns and draws,
identical outputs with traceId = spanId = index string. -/
theorem generate_traces_services_irrelevant_witness :
    generate_microservice_traces ["x"] ps0 2 draws0
      = generate_microservice_traces [] ps0 2 draws0
    ∧ ((Trace.mk "1" "1" "a" "b" :: [Trace.mk "2" "2" "a" "b"]).get
        ⟨0, by decide⟩).traceId = toString (0 + 1) := by
  have h := generate_traces_services_irrelevant ["x"] [] ps0 2 draws0
  refine ⟨h.1, ?_⟩
  have hts : generate_microservice_traces ["x"] ps0 2 draws0 =
      some (Trace.mk "1" "1" "a" "b" :: [Trace.mk "2" "2" "a" "b"]) := by
    norm_num [generate_microservice_traces, genLoop, selectLoop, mkTrace,
      draws0, ps0]
    decide
  exact (h.2 _ hts 0 (by decide)).1

/-- C3: the expected-DCI computation equals the number of distinct callee
values over all call patterns whose caller is `s`, divided by
`|services| - 1` (0 when `|services| - 1 ≤ 0`); the result is classified
High when `dci ≥ 0.7`, Moderate when `0.4 ≤ dci < 0.7`, Low when
`0 < dci < 0.4` and No when `dci = 0`; and on the `simple_chain` template
every non-terminal service scores 1/3 (Low) and `database` scores 0 (No). -/
theorem expectedDci_formula_classification_simple_chain :
    (∀ (services : List String) (calls : List Pat) (s : String),
        expectedDci services calls s =
          if 0 < maxPossible services then
            (((calls.filter (fun c => c.1 = s)).map
                (fun c => c.2.1)).toFinset.card : ℚ)
              / (maxPossible services : ℚ)
          else 0)
    ∧ (∀ d : ℚ,
        (7/10 ≤ d → classify d = "High") ∧
        (4/10 ≤ d → d < 7/10 → classify d = "Moderate") ∧
        (0 < d → d < 4/10 → classify d = "Low") ∧
        (d = 0 → classify d = "No"))
    ∧ (expectedDci (templateServices "simple_chain")
          (templateCalls "simple_chain") "frontend" = 1/3
        ∧ classify (expectedDci (templateServices "simple_chain")
            (templateCalls "simple_chain") "frontend") = "Low"
        ∧ expectedDci (templateServices "simple_chain")
            (templateCalls "simple_chain") "api-gateway" = 1/3
        ∧ expectedDci (templateServices "simple_chain")
            (templateCalls "simple_chain") "user-service" = 1/3
        ∧ expectedDci (templateServices "simple_chain")
            (templateCalls "simple_chain") "database" = 0
        ∧ classify (expectedDci (templateServices "simple_chain")
            (templateCalls "simple_chain") "database") = "No") := by
  refine ⟨?_, ?_, ?_⟩
  · intro services calls s
    simp only [expectedDci, distinctCallees, calleesOf, List.card_toFinset]
  · intro d
    refine ⟨fun h => by simp [classify, h], fun h1 h2 => ?_, fun h1 h2 => ?_,
      fun h => ?_⟩
    · unfold classify
      rw [if_neg (by linarith), if_pos h1]
    · unfold classify
      rw [if_neg (by linarith), if_neg (by linarith), if_pos h1]
    · subst h
      norm_num [classify]
  · have hfr : distinctCallees (templateCalls "simple_chain") "frontend" = 1 :=
      by decide
    have hag : distinctCallees (templateCalls "simple_chain") "api-gateway" = 1 :=
      by decide
    have hus : distinctCallees (templateCalls "simple_chain") "user-service" = 1 :=
      by decide
    have hdb : distinctCallees (templateCalls "simple_chain") "database" = 0 :=
      by decide
    have hmax : maxPossible (templateServices "simple_chain") = 3 := by decide
    have h1 : expectedDci (templateServices "simple_chain")
        (templateCalls "simple_chain") "frontend" = 1/3 := by
      norm_num [expectedDci, hmax, hfr]
    have h4 : expectedDci (templateServices "simple_chain")
        (templateCalls "simple_chain") "database" = 0 := by
      norm_num [expectedDci, hmax, hdb]
    refine ⟨h1, by rw [h1]; norm_num [classify], ?_, ?_, h4,
      by rw [h4]; norm_num [classify]⟩
    · norm_num [expectedDci, hmax, hag]
    · norm_num [expectedDci, hmax, hus]

/-- C3 witness: the threshold chain at a concrete score. -/
theorem expectedDci_formula_classification_simple_chain_witness :
    classify (9/10) = "High" :=
  (expectedDci_formula_classification_simple_chain.2.1 (9/10)).1 (by norm_num)

def rows1 : List DciRow := [⟨"svcA", 4/5, "High"⟩]

/-- C5 counterexample: on a table whose only status is High, the status
distribution has no entry for Moderate (nor for the other absent statuses),
contradicting the claim that all four statuses always appear. -/
theorem statusDistribution_omits_absent_status :
    "Moderate" ∉ (statusDistribution rows1).map Prod.fst := by decide

/-- C5 amended: the status distribution has exactly one entry per status
value that occurs in the rows, carrying its occurrence count (always ≥ 1);
statuses that never occur have no entry. -/
theorem statusDistribution_occurring_entries (rows : List DciRow)
    (s : String) :
    ((∃ c, (s, c) ∈ statusDistribution rows) ↔
      s ∈ rows.map (fun r => r.status))
    ∧ ∀ c, (s, c) ∈ statusDistribution rows →
        c = (rows.filter (fun r => r.status = s)).length ∧ 1 ≤ c := by
  constructor
  · constructor
    · rintro ⟨c, hc⟩
      obtain ⟨a, ha, hac⟩ := List.mem_map.mp hc
      obtain ⟨rfl, -⟩ := Prod.mk.injEq .. ▸ hac
      exact List.mem_dedup.mp ha
    · intro hs
      exact ⟨(rows.filter (fun r => r.status = s)).length,
        List.mem_map.mpr ⟨s, List.mem_dedup.mpr hs, rfl⟩⟩
  · intro c hc
    obtain ⟨a, ha, hac⟩ := List.mem_map.mp hc
    obtain ⟨rfl, rfl⟩ := Prod.mk.injEq .. ▸ hac
    refine ⟨rfl, ?_⟩
    have hs : a ∈ rows.map (fun r => r.status) := List.mem_dedup.mp ha
    obtain ⟨r, hr, hra⟩ := List.mem_map.mp hs
    have : r ∈ rows.filter (fun r => r.status = a) :=
      List.mem_filter.mpr ⟨hr, by simp [hra]⟩
    exact Nat.succ_le_of_lt (List.length_pos.mpr (List.ne_nil_of_mem this))

/-- C5 amended witness: the occurring status High does get an entry. -/
theorem statusDistribution_occurring_entries_witness :
    ∃ c, ("High", c) ∈ statusDistribution rows1 :=
  (statusDistribution_occurring_entries rows1 "High").1.mpr (by decide)

/-- C6 counterexample: when the DCI results file is missing or unreadable
(`load_dci_results` returns None), validate_rmt_dci's main returns normally,
so the process terminates with status 0 — not the non-zero status the claim
requires. -/
theorem validate_missing_table_exit_zero :
    validateMainExit ["dci_output_rmt.csv"] none = 0 := rfl

/-- C6 amended: generate_traces.py terminates with a non-zero status
exactly on missing arguments, on an unknown pattern name, or on a supplied
trace-count argument that is not a valid integer (uncaught ValueError at
the `int` conversion); validate_rmt_dci.py terminates with a non-zero
status exactly when the input table loads but triggers an uncaught
KeyError — the Status column is absent, or the Service column is absent
where the analysis or (in the no-MCI-argument template path) the
comparison-template build reads it — and with status zero otherwise, in
particular on a missing or unreadable input table, which it only reports by
message. -/
theorem main_exit_status :
    (∀ (args : List String) (numParse : Option ℤ),
        generateMainExit args numParse ≠ 0 ↔
          (args = [] ∨
            (∃ name rest, args = name :: rest ∧ name ∉ patternNames) ∨
            (∃ name c rest, args = name :: c :: rest ∧ numParse = none)))
    ∧ (∀ (args : List String) (load : Option LoadedTable),
        validateMainExit args load ≠ 0 ↔
          (∃ file rest t, args = file :: rest ∧ load = some t ∧
            (analyzeRaisesKeyError t = true ∨
              (rest = [] ∧ t.hasService = false)))) := by
  constructor
  · intro args numParse
    cases args with
    | nil => simp [generateMainExit]
    | cons name rest =>
      cases rest with
      | nil =>
        by_cases h : name ∈ patternNames
        · simp [generateMainExit, h]
        · simp [generateMainExit, h]
      | cons c rest' =>
        cases numParse with
        | none => simp [generateMainExit]
        | some k =>
          by_cases h : name ∈ patternNames
          · simp [generateMainExit, h]
          · simp [generateMainExit, h]
  · intro args load
    cases args with
    | nil => simp [validateMainExit]
    | cons file rest =>
      cases load with
      | none => simp [validateMainExit]
      | some t =>
        cases rest with
        | nil =>
          by_cases hr : analyzeRaisesKeyError t
          · simp [validateMainExit, hr]
          · by_cases hs : t.hasService
            · simp [validateMainExit, hr, hs]
            · simp [validateMainExit, hr, hs]
        | cons mci rest' =>
          by_cases hr : analyzeRaisesKeyError t
          · simp [validateMainExit, hr]
          · simp [validateMainExit, hr]

/-- C6 amended witness: a known pattern with a malformed count argument
exits non-zero, and a loaded table without a Service column exits non-zero
on the template path. -/
theorem main_exit_status_witness :
    generateMainExit ["simple_chain", "abc"] none ≠ 0
    ∧ validateMainExit ["dci_output_rmt.csv"]
        (some (LoadedTable.mk false true [])) ≠ 0 :=
  ⟨(main_exit_status.1 ["simple_chain", "abc"] none).mpr
      (Or.inr (Or.inr ⟨"simple_chain", "abc", [], rfl, rfl⟩)),
   (main_exit_status.2 ["dci_output_rmt.csv"]
      (some (LoadedTable.mk false true []))).mpr
      ⟨"dci_output_rmt.csv", [], LoadedTable.mk false true [], rfl, rfl,
        Or.inr ⟨rfl, rfl⟩⟩⟩

/-- C8: the comparison join is an inner join on service identity — a
service present in only one input appears in no row — each row's difference
field is the absolute difference of its dci and mciAfferent fields, and the
spec's concrete example joins to exactly one row for svcA with
difference 0.05. -/
theorem compareJoin_inner_join_difference :
    (∀ (d m : List (String × ℚ)) (s : String),
        ((∀ q, (s, q) ∉ d) ∨ (∀ q, (s, q) ∉ m)) →
        ∀ r ∈ compareJoin d m, r.service ≠ s)
    ∧ (∀ (d m : List (String × ℚ)) (r : ComparisonRow),
        r ∈ compareJoin d m → r.difference = |r.dci - r.mciAfferent|)
    ∧ compareJoin [("svcA", 8/10), ("svcB", 1/10)] [("svcA", 3/4), ("svcC", 1/5)]
        = [⟨"svcA", 8/10, 3/4, 1/20⟩] := by
  refine ⟨?_, ?_, ?_⟩
  · intro d m s hs r hr
    obtain ⟨dd, hdd, hr2⟩ := List.mem_flatMap.mp hr
    obtain ⟨mm, hmm, rfl⟩ := List.mem_map.mp hr2
    obtain ⟨hmmm, hmm1⟩ := List.mem_filter.mp hmm
    intro hsvc
    simp only at hsvc
    rcases hs with hd | hm
    · exact hd dd.2 (by rw [← hsvc]; exact hdd)
    · have : mm.1 = s := by
        have := of_decide_eq_true hmm1
        rw [this, hsvc]
      exact hm mm.2 (by rw [← this]; exact hmmm)
  · intro d m r hr
    obtain ⟨dd, hdd, hr2⟩ := List.mem_flatMap.mp hr
    obtain ⟨mm, hmm, rfl⟩ := List.mem_map.mp hr2
    rfl
  · simp [compareJoin]
    norm_num

/-- C8 witness: the difference field of the joined svcA row is the absolute
dci/mciAfferent difference. -/
theorem compareJoin_inner_join_difference_witness :
    (ComparisonRow.mk "svcA" (8/10) (3/4) (1/20)).difference =
      |(ComparisonRow.mk "svcA" (8/10) (3/4) (1/20)).dci -
        (ComparisonRow.mk "svcA" (8/10) (3/4) (1/20)).mciAfferent| :=
  compareJoin_inner_join_difference.2.1 [("svcA", 8/10)] [("svcA", 3/4)]
    (ComparisonRow.mk "svcA" (8/10) (3/4) (1/20))
    (by simp [compareJoin]
        norm_num
        rw [abs_of_pos (by norm_num)])

theorem distinctCallees_perm {c₁ c₂ : List Pat} (h : c₁.Perm c₂)
    (s : String) : distinctCallees c₁ s = distinctCallees c₂ s := by
  unfold distinctCallees calleesOf
  exact (((h.filter _).map _).dedup).length_eq

theorem distinctCallees_dup (a b : String) (w w' : ℕ) (calls : List Pat)
    (s : String) (h : (a, b, w') ∈ calls) :
    distinctCallees ((a, b, w) :: calls) s = distinctCallees calls s := by
  unfold distinctCallees calleesOf
  by_cases has : a = s
  · subst has
    have hb : b ∈ (calls.filter (fun c => c.1 = a)).map (fun c => c.2.1) :=
      List.mem_map.mpr ⟨(a, b, w'), List.mem_filter.mpr ⟨h, by simp⟩, rfl⟩
    rw [List.filter_cons_of_pos (by simp), List.map_cons]
    show (b :: (calls.filter (fun c => c.1 = a)).map
      (fun c => c.2.1)).dedup.length = _
    rw [List.dedup_cons_of_mem hb]
  · rw [List.filter_cons_of_neg]
    simp [has]

/-- C9: the expected-DCI value of every service is unchanged under any
reordering of the call-pattern list, and unchanged when a caller→callee
edge already in the list is added again (with any weight): duplicate edges
count as one distinct callee, not once per occurrence. -/
theorem expectedDci_invariance (services : List String) (s : String) :
    (∀ c₁ c₂ : List Pat, c₁.Perm c₂ →
        expectedDci services c₁ s = expectedDci services c₂ s)
    ∧ (∀ (a b : String) (w w' : ℕ) (calls : List Pat), (a, b, w') ∈ calls →
        expectedDci services ((a, b, w) :: calls) s
          = expectedDci services calls s) := by
  constructor
  · intro c₁ c₂ h
    unfold expectedDci
    rw [distinctCallees_perm h]
  · intro a b w w' calls h
    unfold expectedDci
    rw [distinctCallees_dup a b w w' calls s h]

/-- C9 witness: swapping two patterns, and re-adding an existing edge with a
different weight, both leave the expected DCI unchanged. -/
theorem expectedDci_invariance_witness :
    expectedDci ["x", "y", "z"] [("x", "y", 1), ("x", "z", 2)] "x"
      = expectedDci ["x", "y", "z"] [("x", "z", 2), ("x", "y", 1)] "x"
    ∧ expectedDci ["x", "y", "z"] [("x", "y", 9), ("x", "y", 1), ("x", "z", 2)] "x"
      = expectedDci ["x", "y", "z"] [("x", "y", 1), ("x", "z", 2)] "x" :=
  ⟨(expectedDci_invariance ["x", "y", "z"] "x").1 _ _
      (List.Perm.swap ("x", "z", 2) ("x", "y", 1) []),
   (expectedDci_invariance ["x", "y", "z"] "x").2 "x" "y" 9 1
      [("x", "y", 1), ("x", "z", 2)] (by decide)⟩

theorem devSum2_nonneg (l : List ℚ) : 0 ≤ devSum2 l :=
  List.sum_nonneg (fun x hx => by
    obtain ⟨y, hy, rfl⟩ := List.mem_map.mp hx
    positivity)

/-- C7: over any joined comparison table, `correlation` is the Pearson
coefficient of the dci and mciAfferent columns: it returns NaN (`none`)
exactly when there are fewer than 2 rows or either column has zero
variance — an explicit guard, not an unguarded division — and otherwise
divides the covariance sum by a square root that is provably positive. -/
theorem correlation_pearson_nan_policy (dciRows mciRows : List (String × ℚ))
    (pairs : List (ℚ × ℚ)) (hp : pairs = joinedPairs dciRows mciRows) :
    (correlation pairs = none ↔
      (pairs.length < 2 ∨ devSum2 (col1 pairs) = 0 ∨ devSum2 (col2 pairs) = 0))
    ∧ (2 ≤ pairs.length → devSum2 (col1 pairs) ≠ 0 →
        devSum2 (col2 pairs) ≠ 0 →
        0 < Real.sqrt ((devSum2 (col1 pairs) : ℝ) * (devSum2 (col2 pairs) : ℝ))
        ∧ correlation pairs = some ((covSum pairs : ℝ) /
            Real.sqrt ((devSum2 (col1 pairs) : ℝ) *
              (devSum2 (col2 pairs) : ℝ)))) := by
  have hcor : correlation pairs =
      if 2 ≤ pairs.length ∧ devSum2 (col1 pairs) ≠ 0 ∧
          devSum2 (col2 pairs) ≠ 0
      then some ((covSum pairs : ℝ) /
        Real.sqrt ((devSum2 (col1 pairs) : ℝ) * (devSum2 (col2 pairs) : ℝ)))
      else none := rfl
  constructor
  · rw [hcor]
    by_cases hg : 2 ≤ pairs.length ∧ devSum2 (col1 pairs) ≠ 0 ∧
        devSum2 (col2 pairs) ≠ 0
    · rw [if_pos hg]
      refine iff_of_false (by simp) ?_
      push_neg
      exact hg
    · rw [if_neg hg]
      refine iff_of_true rfl ?_
      simp only [not_and_or, not_not, not_le] at hg
      exact hg
  · intro h1 h2 h3
    refine ⟨?_, by rw [hcor, if_pos ⟨h1, h2, h3⟩]⟩
    have hv1 : 0 < devSum2 (col1 pairs) :=
      lt_of_le_of_ne (devSum2_nonneg _) (Ne.symm h2)
    have hv2 : 0 < devSum2 (col2 pairs) :=
      lt_of_le_of_ne (devSum2_nonneg _) (Ne.symm h3)
    have hpos : (0 : ℝ) <
        (devSum2 (col1 pairs) : ℝ) * (devSum2 (col2 pairs) : ℝ) := by
      have c1 : (0 : ℝ) < (devSum2 (col1 pairs) : ℝ) := by
        exact_mod_cast hv1
      have c2 : (0 : ℝ) < (devSum2 (col2 pairs) : ℝ) := by
        exact_mod_cast hv2
      exact mul_pos c1 c2
    exact Real.sqrt_pos.mpr hpos

def d0 : List (String × ℚ) := [("a", 0), ("b", 1)]

/-- C7 witness: a two-row join with non-constant columns meets the guard
and its Pearson denominator is positive. -/
theorem correlation_pearson_nan_policy_witness :
    0 < Real.sqrt ((devSum2 (col1 (joinedPairs d0 d0)) : ℝ) *
        (devSum2 (col2 (joinedPairs d0 d0)) : ℝ)) := by
  have hjp : joinedPairs d0 d0 = [(0, 0), (1, 1)] := by
    simp [joinedPairs, compareJoin, d0]
  refine ((correlation_pearson_nan_policy d0 d0
    (joinedPairs d0 d0) rfl).2 ?_ ?_ ?_).1
  · rw [hjp]
    norm_num
  · rw [hjp]
    norm_num [devSum2, meanQ, col1]
  · rw [hjp]
    norm_num [devSum2, meanQ, col2]

end DCI
